import Mathlib

/-! Verification of the BSON `BsonFormattable` conversion layer.

A shallow embedding of `src/bson/formattable.rs` (mongodb-cwal-rs): the
`Document` value model, the scalar / string / sequence / mapping adapters and
the generic-JSON adapter, together with theorems settling the specification
claims about them.

Modelling conventions:
* machine integers are embedded as `ℤ`; the Rust `as` casts between integer
  kinds are explicit wrap functions (`wrapS`, `wrapU`);
* finite IEEE-754 floating point values are embedded as the rationals they
  denote (`ℚ`); every finite double is a rational, widening `f32 → f64` is
  exact (the identity on the denoted rational), and narrowing casts are the
  round-to-nearest-even function `fpRound` on `ℚ` (infinities and NaN are
  outside the claims considered here and are not modelled);
* the 2013-era Rust `float` kind is 64-bit, so `float ↔ f64` casts are the
  identity;
* `~str` is `String`, `~[T]` is `List`, and owned boxes are elided (they only
  forward conversion).
-/

set_option maxHeartbeats 1000000
set_option linter.unreachableTactic false
set_option linter.unusedTactic false
set_option linter.unusedVariables false

namespace Formattable

/-- The Rust cast to an unsigned `w`-bit integer: wrap modulo `2^w`. -/
def wrapU (w : ℕ) (i : ℤ) : ℤ := i % (2 ^ w : ℤ)

/-- The Rust cast to a signed `w`-bit integer: wrap modulo `2^w` into
`[-2^(w-1), 2^(w-1))`. -/
def wrapS (w : ℕ) (i : ℤ) : ℤ := (i + 2 ^ (w - 1)) % (2 ^ w : ℤ) - 2 ^ (w - 1)

/-- Round a rational to the nearest integer, ties to even. -/
def rne (q : ℚ) : ℤ :=
  if q - ⌊q⌋ < 1 / 2 then ⌊q⌋
  else if 1 / 2 < q - ⌊q⌋ then ⌊q⌋ + 1
  else if Even ⌊q⌋ then ⌊q⌋ else ⌊q⌋ + 1

/-- Round-to-nearest-even at a binary floating-point format with `prec` bits
of precision and minimum exponent `-emin` (`fpRound 24 149` is the
`f64 → f32` cast on finite values, `fpRound 53 1074` the integer → `f64`
cast; overflow to infinity is not modelled as no claim reaches it). -/
def fpRound (prec emin : ℕ) (q : ℚ) : ℚ :=
  if q = 0 then 0
  else
    let s : ℤ := max (Int.log 2 |q| - ((prec : ℤ) - 1)) (-(emin : ℤ))
    (rne (q * (2 : ℚ) ^ (-s)) : ℚ) * (2 : ℚ) ^ s

/-- The rational `q` denotes a finite IEEE-754 single-precision (`f32`) value: a dyadic
rational `m · 2^e` with `|m| < 2^24` and `-149 ≤ e ≤ 104`. -/
def IsF32 (q : ℚ) : Prop :=
  ∃ m e : ℤ, m.natAbs < 2 ^ 24 ∧ -149 ≤ e ∧ e ≤ 104 ∧ q = (m : ℚ) * (2 : ℚ) ^ e

theorem rne_intCast (n : ℤ) : rne (n : ℚ) = n := by
  norm_num [rne]

theorem fpRound_aux (m e s : ℤ) (hse : s ≤ e) :
    (rne ((m : ℚ) * (2 : ℚ) ^ e * (2 : ℚ) ^ (-s)) : ℚ) * (2 : ℚ) ^ s
      = (m : ℚ) * (2 : ℚ) ^ e := by
  have h2 : (2 : ℚ) ≠ 0 := by norm_num
  have hns : (0 : ℤ) ≤ e - s := sub_nonneg.mpr hse
  have hes : e + -s = ((e - s).toNat : ℤ) := by omega
  have h1 : (m : ℚ) * (2 : ℚ) ^ e * (2 : ℚ) ^ (-s)
      = ((m * 2 ^ (e - s).toNat : ℤ) : ℚ) := by
    rw [mul_assoc, ← zpow_add₀ h2, hes]
    push_cast
    rw [zpow_natCast]
  rw [h1, rne_intCast]
  push_cast
  rw [← zpow_natCast (2 : ℚ) ((e - s).toNat), ← hes, mul_assoc, ← zpow_add₀ h2]
  have h3 : e + -s + s = e := by ring
  rw [h3]

/-- Round-to-nearest at precision `prec` is the identity on values already
representable at that precision (the in-range narrowing cast loses
nothing). -/
theorem fpRound_eq_self {prec emin : ℕ} {m e : ℤ} {q : ℚ}
    (hm : m.natAbs < 2 ^ prec) (he : -(emin : ℤ) ≤ e)
    (hq : q = (m : ℚ) * (2 : ℚ) ^ e) : fpRound prec emin q = q := by
  subst hq
  rcases eq_or_ne m 0 with hm0 | hm0
  · subst hm0; simp [fpRound]
  · have h2 : (2 : ℚ) ≠ 0 := by norm_num
    have hqne : (m : ℚ) * (2 : ℚ) ^ e ≠ 0 :=
      mul_ne_zero (Int.cast_ne_zero.mpr hm0) (zpow_ne_zero _ h2)
    have hqpos : 0 < |(m : ℚ) * (2 : ℚ) ^ e| := abs_pos.mpr hqne
    have habs : |(m : ℚ) * (2 : ℚ) ^ e| = (m.natAbs : ℚ) * (2 : ℚ) ^ e := by
      rw [abs_mul, abs_of_pos (zpow_pos (by norm_num : (0 : ℚ) < 2) e),
        Int.cast_natAbs, Int.cast_abs]
    have hmlt : (m.natAbs : ℚ) < (2 : ℚ) ^ (prec : ℕ) := by exact_mod_cast hm
    have hlt : |(m : ℚ) * (2 : ℚ) ^ e| < (2 : ℚ) ^ (e + (prec : ℤ)) := by
      rw [habs, zpow_add₀ h2, zpow_natCast, mul_comm ((2 : ℚ) ^ e)]
      exact mul_lt_mul_of_pos_right hmlt (zpow_pos (by norm_num) e)
    have hlog : Int.log 2 |(m : ℚ) * (2 : ℚ) ^ e| < e + (prec : ℤ) := by
      rw [← Int.lt_zpow_iff_log_lt (by norm_num) hqpos]
      exact_mod_cast hlt
    have hse : max (Int.log 2 |(m : ℚ) * (2 : ℚ) ^ e| - ((prec : ℤ) - 1))
        (-(emin : ℤ)) ≤ e := max_le (by omega) he
    simp only [fpRound, if_neg hqne]
    exact fpRound_aux m e _ hse

/-- The `f64 → f32` Rust cast on finite values. -/
def f64_as_f32 (q : ℚ) : ℚ := fpRound 24 149 q

/-- The `i64 → float` Rust cast (the era's `float` is 64-bit); exact
round-to-nearest-even, no overflow is possible from 64-bit integers. -/
def i64_as_float (i : ℤ) : ℚ := fpRound 53 1074 (i : ℚ)

/-- The `i32 → float` Rust cast: exact, since `|i| < 2^31 < 2^53`. -/
def i32_as_float (i : ℤ) : ℚ := (i : ℚ)

/-- The `i32 → char` Rust cast of the era: reinterpret the low 32 bits as a
code point (no validity check). -/
def i32_as_char (i : ℤ) : ℤ := wrapU 32 i

/-- The `Document` enum of `encode.rs` as described by the spec's data model
(`encode.rs` itself is not part of the fragment; the variant list and
payloads follow the spec §3 and the uses in `formattable.rs`). The
`BsonDocument` container is embedded as its ordered field list
`List (String × Document)`.
-/
inductive Document where
  | Double (f : ℚ)
  | Int32 (i : ℤ)
  | Int64 (i : ℤ)
  | UString (s : String)
  | Embedded (fields : List (String × Document))
  | Array (fields : List (String × Document))
  | Binary (subtype : ℕ) (bytes : List ℕ)
  | ObjectId (bytes : List ℕ)
  | Bool (b : Bool)
  | UTCDate (i : ℤ)
  | Null
  | Regex (pat : String) (opts : String)
  | JScript (s : String)
  | JScriptWithScope (s : String) (scope : List (String × Document))
  | Timestamp (i : ℤ)
  | MinKey
  | MaxKey

/-- The ordered field list backing `Embedded`/`Array` documents. -/
abbrev BsonDocument := List (String × Document)

/-- Modelled from the spec: `BsonDocument::put` of `encode.rs` (not under
`src/`) inserts a field, overwriting the value at the first occurrence of a
duplicate key (keeping its position) and appending a fresh key. -/
def BsonDocument.put (d : BsonDocument) (k : String) (v : Document) : BsonDocument :=
  match d with
  | [] => [(k, v)]
  | (k', v') :: rest =>
      if k' = k then (k', v) :: rest
      else (k', v') :: BsonDocument.put rest k v

/-- Repeated `put` of a list of fields, in order. -/
def BsonDocument.putList (d : BsonDocument) : List (String × Document) → BsonDocument
  | [] => d
  | (k, v) :: rest => BsonDocument.putList (d.put k v) rest

/-- Fuel-indexed decimal digit rendering, most significant digit first; with
fuel above `n` this renders all digits of `n`. -/
def decDigitsAux : ℕ → ℕ → List Char
  | 0, _ => []
  | fuel + 1, n =>
      if n < 10 then [Nat.digitChar n]
      else decDigitsAux fuel (n / 10) ++ [Nat.digitChar (n % 10)]

/-- The decimal rendering of a natural number: `uint::to_str()` in the
source, used for the positional string keys of `Array` documents. -/
def natToStr (n : ℕ) : String := String.mk (decDigitsAux (n + 1) n)

/-- Numeric value of a decimal digit character. -/
def decVal (c : Char) : ℕ := c.toNat - 48

/-- Read a decimal digit string back as a number (proof tool for the
injectivity of `natToStr`). -/
def parseDec (ds : List Char) : ℕ := ds.foldl (fun a c => 10 * a + decVal c) 0

theorem parseDec_append_digit (ds : List Char) (c : Char) :
    parseDec (ds ++ [c]) = 10 * parseDec ds + decVal c := by
  simp [parseDec, List.foldl_append]

theorem decVal_digitChar {d : ℕ} (h : d < 10) : decVal (Nat.digitChar d) = d := by
  interval_cases d <;> rfl

theorem parseDec_decDigitsAux : ∀ fuel n : ℕ, n < fuel →
    parseDec (decDigitsAux fuel n) = n := by
  intro fuel
  induction fuel with
  | zero => intro n h; omega
  | succ f ih =>
      intro n h
      rw [decDigitsAux]
      by_cases h10 : n < 10
      · simp only [if_pos h10]
        simpa [parseDec] using decVal_digitChar h10
      · simp only [if_neg h10]
        rw [parseDec_append_digit, ih (n / 10) (by omega),
          decVal_digitChar (Nat.mod_lt n (by omega))]
        omega

theorem natToStr_injective : Function.Injective natToStr := by
  intro m n h
  have h' : decDigitsAux (m + 1) m = decDigitsAux (n + 1) n := by
    simpa [natToStr] using congrArg String.data h
  have := congrArg parseDec h'
  rwa [parseDec_decDigitsAux (m + 1) m (by omega),
    parseDec_decDigitsAux (n + 1) n (by omega)] at this

/-! Scalar adapters.

Each numeric kind routes through its canonical widened kind, exactly as the
`float_fmt!` / `i32_fmt!` macros and the `f64`/`i32`/`i64` impls do. -/

/-- Source `impl BsonFormattable for f64 :: to_bson_t`. -/
def f64.to_bson_t (v : ℚ) : Document := .Double v

/-- Source `impl BsonFormattable for f64 :: from_bson_t`. -/
def f64.from_bson_t : Document → Except String ℚ
  | .Double f => .ok f
  | _ => .error "can only cast Double to f64"

/-- Source `impl BsonFormattable for i32 :: to_bson_t`. -/
def i32.to_bson_t (v : ℤ) : Document := .Int32 v

/-- Source `impl BsonFormattable for i32 :: from_bson_t`. -/
def i32.from_bson_t : Document → Except String ℤ
  | .Int32 i => .ok i
  | _ => .error "can only cast Int32 to i32"

/-- Source `impl BsonFormattable for i64 :: to_bson_t`. -/
def i64.to_bson_t (v : ℤ) : Document := .Int64 v

/-- Source `impl BsonFormattable for i64 :: from_bson_t`: accepts `Int64`,
`UTCDate` and `Timestamp`. -/
def i64.from_bson_t : Document → Except String ℤ
  | .Int64 i => .ok i
  | .UTCDate i => .ok i
  | .Timestamp i => .ok i
  | _ => .error "can only cast Int64, Date, and Timestamp to i64"

/-- Source `float_fmt! { impl f32 }`: `(*self as f64)` is exact on the denoted
rational. -/
def f32.to_bson_t (v : ℚ) : Document := f64.to_bson_t v

/-- Source `float_fmt! { impl f32 }`: `Ok(i as f32)` narrows by rounding. -/
def f32.from_bson_t (doc : Document) : Except String ℚ :=
  match f64.from_bson_t doc with
  | .ok i => .ok (f64_as_f32 i)
  | .error e => .error e

/-- Source `float_fmt! { impl float }`: the era's `float` is 64-bit, the cast to
`f64` is the identity. -/
def float.to_bson_t (v : ℚ) : Document := f64.to_bson_t v

/-- Source `float_fmt! { impl float }`: `Ok(i as float)`, an identity cast. -/
def float.from_bson_t (doc : Document) : Except String ℚ :=
  match f64.from_bson_t doc with
  | .ok i => .ok i
  | .error e => .error e

/-- Source `i32_fmt! { impl i8 }`: `*self as i32` sign-extends (identity on the
value). -/
def i8.to_bson_t (v : ℤ) : Document := i32.to_bson_t v

/-- Source `i32_fmt! { impl i8 }`: `Ok(i as i8)` truncates to 8 signed bits. -/
def i8.from_bson_t (doc : Document) : Except String ℤ :=
  match i32.from_bson_t doc with
  | .ok i => .ok (wrapS 8 i)
  | .error e => .error e

/-- Source `i32_fmt! { impl i16 }`. -/
def i16.to_bson_t (v : ℤ) : Document := i32.to_bson_t v

/-- Source `i32_fmt! { impl i16 }`: `Ok(i as i16)` truncates to 16 signed bits. -/
def i16.from_bson_t (doc : Document) : Except String ℤ :=
  match i32.from_bson_t doc with
  | .ok i => .ok (wrapS 16 i)
  | .error e => .error e

/-- Source `i32_fmt! { impl u8 }`: `*self as i32` is the identity on `u8` values. -/
def u8.to_bson_t (v : ℤ) : Document := i32.to_bson_t v

/-- Source `i32_fmt! { impl u8 }`: `Ok(i as u8)` truncates to 8 unsigned bits. -/
def u8.from_bson_t (doc : Document) : Except String ℤ :=
  match i32.from_bson_t doc with
  | .ok i => .ok (wrapU 8 i)
  | .error e => .error e

/-- Source `i32_fmt! { impl u16 }`. -/
def u16.to_bson_t (v : ℤ) : Document := i32.to_bson_t v

/-- Source `i32_fmt! { impl u16 }`: `Ok(i as u16)` truncates to 16 unsigned bits. -/
def u16.from_bson_t (doc : Document) : Except String ℤ :=
  match i32.from_bson_t doc with
  | .ok i => .ok (wrapU 16 i)
  | .error e => .error e

/-- Source `i32_fmt! { impl u32 }`: `*self as i32` reinterprets the 32 bits. -/
def u32.to_bson_t (v : ℤ) : Document := i32.to_bson_t (wrapS 32 v)

/-- Source `i32_fmt! { impl u32 }`: `Ok(i as u32)` reinterprets the 32 bits. -/
def u32.from_bson_t (doc : Document) : Except String ℤ :=
  match i32.from_bson_t doc with
  | .ok i => .ok (wrapU 32 i)
  | .error e => .error e

/-- Source `i32_fmt! { impl int }` (64-bit native): `*self as i32` truncates. -/
def int.to_bson_t (v : ℤ) : Document := i32.to_bson_t (wrapS 32 v)

/-- Source `i32_fmt! { impl int }`: `Ok(i as int)` sign-extends (identity on the
value). -/
def int.from_bson_t (doc : Document) : Except String ℤ :=
  match i32.from_bson_t doc with
  | .ok i => .ok i
  | .error e => .error e

/-- Source `i32_fmt! { impl uint }` (64-bit native): `*self as i32` truncates. -/
def uint.to_bson_t (v : ℤ) : Document := i32.to_bson_t (wrapS 32 v)

/-- Source `i32_fmt! { impl uint }`: `Ok(i as uint)` sign-extends then
reinterprets as 64 unsigned bits. -/
def uint.from_bson_t (doc : Document) : Except String ℤ :=
  match i32.from_bson_t doc with
  | .ok i => .ok (wrapU 64 i)
  | .error e => .error e

/-- Source `i32_fmt! { impl char }`: `*self as i32` is the code-point value. -/
def char.to_bson_t (v : ℤ) : Document := i32.to_bson_t v

/-- Source `i32_fmt! { impl char }`: `Ok(i as char)` reinterprets the low 32 bits
as a code point (the era's cast performs no validity check). -/
def char.from_bson_t (doc : Document) : Except String ℤ :=
  match i32.from_bson_t doc with
  | .ok i => .ok (i32_as_char i)
  | .error e => .error e

/-! Sequence and mapping adapters.

Rust's generic impls monomorphize per element type; the Lean embedding
takes the element conversion function as an argument. -/

/-- Source `impl BsonFormattable for ~[T] :: to_bson_t`: map each element through
`to_bson_t`, then `put` each result under the decimal rendering of its
zero-based index, and wrap as `Array`. -/
def seq.to_bson_t {α : Type} (toT : α → Document) (l : List α) : Document :=
  .Array (BsonDocument.putList []
    (((l.map toT).enum).map fun p => (natToStr p.1, p.2)))

/-- The element loop of `~[T] :: from_bson_t`: convert each field's value in
stored order, aborting on the first failure. -/
def seq.fromFields {α : Type} (fromT : Document → Except String α) :
    List (String × Document) → Except String (List α)
  | [] => .ok []
  | (_, v) :: rest =>
      match fromT v with
      | .ok elt =>
          match seq.fromFields fromT rest with
          | .ok r => .ok (elt :: r)
          | .error e => .error e
      | .error e => .error e

/-- Source `impl BsonFormattable for ~[T] :: from_bson_t`: accepts only `Array`. -/
def seq.from_bson_t {α : Type} (fromT : Document → Except String α) :
    Document → Except String (List α)
  | .Array d => seq.fromFields fromT d
  | _ => .error "only Arrays can be converted to lists"

/-- Rust `std::hashmap::HashMap` modelled as an association list; `insert`
replaces the value at an existing key and otherwise appends (the real hash
map's iteration order is unspecified; no claim depends on it). -/
def HM.insert {α : Type} (m : List (String × α)) (k : String) (v : α) :
    List (String × α) :=
  match m with
  | [] => [(k, v)]
  | (k', v') :: rest =>
      if k' = k then (k', v) :: rest else (k', v') :: HM.insert rest k v

/-- Source `impl BsonFormattable for HashMap<~str,V> :: to_bson_t`. -/
def hmap.to_bson_t {α : Type} (toV : α → Document) (m : List (String × α)) :
    Document :=
  .Embedded (BsonDocument.putList [] (m.map fun p => (p.1, toV p.2)))

/-- The field loop of `HashMap<~str,V> :: from_bson_t`; the `Embedded` and
`Array` arms of the source run this identical loop. -/
def hmap.fromFields {α : Type} (fromV : Document → Except String α) :
    List (String × Document) → List (String × α) →
      Except String (List (String × α))
  | [], m => .ok m
  | (k, v) :: rest, m =>
      match fromV v with
      | .ok elt => hmap.fromFields fromV rest (HM.insert m k elt)
      | .error e => .error e

/-- Source `impl BsonFormattable for HashMap<~str,V> :: from_bson_t`: accepts both
`Embedded` and `Array`. -/
def hmap.from_bson_t {α : Type} (fromV : Document → Except String α) :
    Document → Except String (List (String × α))
  | .Embedded d => hmap.fromFields fromV d []
  | .Array d => hmap.fromFields fromV d []
  | _ => .error "can only convert Embedded or Array to hashmap"

/-! String adapter. -/

/-- Result of an operation that either returns or aborts the process
(`fail!` in the source). -/
inductive FatalOr (α : Type) where
  | ok (a : α)
  | fatal (msg : String)

/-- Modelled from the spec: the source renders the offending document with
`fmt!("%?", doc)`, rustc's debug formatting, which is external to the
fragment; only the variant name is rendered here and no claim depends on
the text. -/
def Document.debugStr : Document → String
  | .Double _ => "Double"
  | .Int32 _ => "Int32"
  | .Int64 _ => "Int64"
  | .UString _ => "UString"
  | .Embedded _ => "Embedded"
  | .Array _ => "Array"
  | .Binary _ _ => "Binary"
  | .ObjectId _ => "ObjectId"
  | .Bool _ => "Bool"
  | .UTCDate _ => "UTCDate"
  | .Null => "Null"
  | .Regex _ _ => "Regex"
  | .JScript _ => "JScript"
  | .JScriptWithScope _ _ => "JScriptWithScope"
  | .Timestamp _ => "Timestamp"
  | .MinKey => "MinKey"
  | .MaxKey => "MaxKey"

/-- Source `impl BsonFormattable for ~str :: to_bson_t`: parse the string as
extended JSON with the external parser (spec §6's `parse_text`
collaborator, a parameter here) and abort fatally on a parse error. -/
def str.to_bson_t (parse : String → Except String Document) (s : String) :
    FatalOr Document :=
  match parse s with
  | .ok doc => .ok doc
  | .error e => .fatal ("invalid string for parsing: " ++ e)

/-- Source `impl BsonFormattable for ~str :: from_bson_t`: accepts only
`UString`. -/
def str.from_bson_t : Document → Except String String
  | .UString s => .ok s
  | doc => .error ("could not convert " ++ doc.debugStr ++ " to string")

/-! Generic-JSON adapter. -/

/-- Source `extra::json::Json`, the generic dynamically-typed JSON value; its
object map is modelled as an association list. -/
inductive Json where
  | Null
  | Number (f : ℚ)
  | String (s : String)
  | Boolean (b : Bool)
  | List (l : List Json)
  | Object (m : List (String × Json))

mutual

/-- Source `impl BsonFormattable for json::Json :: to_bson_t` (the `List` and
`Object` arms are the sequence and mapping adapters monomorphized at
`Json`). -/
def Json.to_bson_t : Json → Document
  | .Null => .Null
  | .Number f => .Double f
  | .String s => .UString s
  | .Boolean b => .Bool b
  | .List l =>
      .Array (BsonDocument.putList []
        (((jsonSeq.toElems l).enum).map fun p => (natToStr p.1, p.2)))
  | .Object m => .Embedded (BsonDocument.putList [] (jsonMap.toFields m))

/-- The element map of `~[Json] :: to_bson_t`. -/
def jsonSeq.toElems : List Json → List Document
  | [] => []
  | j :: rest => Json.to_bson_t j :: jsonSeq.toElems rest

/-- The field map of `HashMap<~str,Json> :: to_bson_t`. -/
def jsonMap.toFields : List (String × Json) → List (String × Document)
  | [] => []
  | (k, v) :: rest => (k, Json.to_bson_t v) :: jsonMap.toFields rest

end

mutual

/-- Source `impl BsonFormattable for json::Json :: from_bson_t`. Note that the
`Array` arm forwards `Embedded(a)` — exactly as the source does — to the
`~[Json]` adapter. -/
def Json.from_bson_t : Document → Except String Json
  | .Double f => .ok (.Number f)
  | .UString s => .ok (.String s)
  | .Embedded a =>
      match jsonMap.from_bson_t (.Embedded a) with
      | .ok d => .ok (.Object d)
      | .error e => .error e
  | .Array a =>
      match jsonSeq.from_bson_t (.Embedded a) with
      | .ok d => .ok (.List d)
      | .error e => .error e
  | .Binary _ _ => .error "bindata cannot be translated to Json"
  | .ObjectId _ => .error "objid cannot be translated to Json"
  | .Bool b => .ok (.Boolean b)
  | .UTCDate i => .ok (.Number (i64_as_float i))
  | .Null => .ok .Null
  | .Regex _ _ => .error "regex cannot be translated to Json"
  | .JScript s => .ok (.String s)
  | .JScriptWithScope _ _ => .error "jscope cannot be translated to Json"
  | .Int32 i => .ok (.Number (i32_as_float i))
  | .Timestamp i => .ok (.Number (i64_as_float i))
  | .Int64 i => .ok (.Number (i64_as_float i))
  | .MinKey => .error "minkey cannot be translated to Json"
  | .MaxKey => .error "maxkey cannot be translated to Json"
termination_by doc => sizeOf doc + 1
decreasing_by all_goals (simp_wf <;> omega)

/-- Source `~[Json] :: from_bson_t`, monomorphized. -/
def jsonSeq.from_bson_t : Document → Except String (List Json)
  | .Array d => jsonSeq.fromFields d
  | _ => .error "only Arrays can be converted to lists"
termination_by doc => sizeOf doc
decreasing_by all_goals (simp_wf <;> omega)

/-- The element loop of `~[Json] :: from_bson_t`. -/
def jsonSeq.fromFields : List (String × Document) → Except String (List Json)
  | [] => .ok []
  | (_, v) :: rest =>
      match Json.from_bson_t v with
      | .ok elt =>
          match jsonSeq.fromFields rest with
          | .ok r => .ok (elt :: r)
          | .error e => .error e
      | .error e => .error e
termination_by l => sizeOf l
decreasing_by all_goals (simp_wf <;> omega)

/-- Source `HashMap<~str,Json> :: from_bson_t`, monomorphized. -/
def jsonMap.from_bson_t : Document → Except String (List (String × Json))
  | .Embedded d => jsonMap.fromFields d []
  | .Array d => jsonMap.fromFields d []
  | _ => .error "can only convert Embedded or Array to hashmap"
termination_by doc => sizeOf doc
decreasing_by all_goals (simp_wf <;> omega)

/-- The field loop of `HashMap<~str,Json> :: from_bson_t`. -/
def jsonMap.fromFields : List (String × Document) → List (String × Json) →
    Except String (List (String × Json))
  | [], m => .ok m
  | (k, v) :: rest, m =>
      match Json.from_bson_t v with
      | .ok elt => jsonMap.fromFields rest (HM.insert m k elt)
      | .error e => .error e
termination_by l _ => sizeOf l
decreasing_by all_goals (simp_wf <;> omega)

end

/-! Variant predicates used to state the claims. -/

/-- The input variants accepted by `i64::from_bson_t`. -/
def isInt64Accepted : Document → Bool
  | .Int64 _ => true
  | .UTCDate _ => true
  | .Timestamp _ => true
  | _ => false

/-- The input variants accepted by `HashMap<~str,V>::from_bson_t`. -/
def isMapInput : Document → Bool
  | .Embedded _ => true
  | .Array _ => true
  | _ => false

/-- Is the document a `UString`? -/
def isUStr : Document → Bool
  | .UString _ => true
  | _ => false

/-- Is the document a `Double`? -/
def isDoubleDoc : Document → Bool
  | .Double _ => true
  | _ => false

/-- Is the document an `Int32`? -/
def isInt32Doc : Document → Bool
  | .Int32 _ => true
  | _ => false

/-- JSON values built from the null / number / string / boolean cases only
(no arrays, no objects). -/
def Json.isScalar : Json → Bool
  | .Null => true
  | .Number _ => true
  | .String _ => true
  | .Boolean _ => true
  | _ => false

/-! Claim theorems. -/

/-- C4: `from_bson_t::<Json>` succeeds on every `Double`, `UString`,
`Bool`, `UTCDate`, `Null`, `JScript`, `Int32`, `Timestamp` and `Int64`
document, and fails with the message naming the variant on every `Binary`,
`ObjectId`, `Regex`, `JScriptWithScope`, `MinKey` and `MaxKey` document. -/
theorem json_from_bson_partiality :
    (∀ f, Json.from_bson_t (.Double f) = .ok (.Number f)) ∧
    (∀ s, Json.from_bson_t (.UString s) = .ok (.String s)) ∧
    (∀ b, Json.from_bson_t (.Bool b) = .ok (.Boolean b)) ∧
    (∀ i, Json.from_bson_t (.UTCDate i) = .ok (.Number (i64_as_float i))) ∧
    (Json.from_bson_t .Null = .ok .Null) ∧
    (∀ s, Json.from_bson_t (.JScript s) = .ok (.String s)) ∧
    (∀ i, Json.from_bson_t (.Int32 i) = .ok (.Number (i32_as_float i))) ∧
    (∀ i, Json.from_bson_t (.Timestamp i) = .ok (.Number (i64_as_float i))) ∧
    (∀ i, Json.from_bson_t (.Int64 i) = .ok (.Number (i64_as_float i))) ∧
    (∀ st bs, Json.from_bson_t (.Binary st bs) =
      .error "bindata cannot be translated to Json") ∧
    (∀ bs, Json.from_bson_t (.ObjectId bs) =
      .error "objid cannot be translated to Json") ∧
    (∀ p o, Json.from_bson_t (.Regex p o) =
      .error "regex cannot be translated to Json") ∧
    (∀ s sc, Json.from_bson_t (.JScriptWithScope s sc) =
      .error "jscope cannot be translated to Json") ∧
    (Json.from_bson_t .MinKey = .error "minkey cannot be translated to Json") ∧
    (Json.from_bson_t .MaxKey = .error "maxkey cannot be translated to Json") := by
  refine ⟨?_, ?_, ?_, ?_, ?_, ?_, ?_, ?_, ?_, ?_, ?_, ?_, ?_, ?_, ?_⟩ <;>
    intros <;> simp [Json.from_bson_t]

/-- C10: A generic JSON value built only from the null, number, string
and boolean cases round-trips: `from_bson_t (to_bson_t j) = Ok j`. -/
theorem json_scalar_roundtrip (j : Json) (h : j.isScalar = true) :
    Json.from_bson_t (Json.to_bson_t j) = .ok j := by
  cases j with
  | Null => simp [Json.to_bson_t, Json.from_bson_t]
  | Number f => simp [Json.to_bson_t, Json.from_bson_t]
  | String s => simp [Json.to_bson_t, Json.from_bson_t]
  | Boolean b => simp [Json.to_bson_t, Json.from_bson_t]
  | List l => simp [Json.isScalar] at h
  | Object m => simp [Json.isScalar] at h

theorem json_scalar_roundtrip_witness :
    (Json.Number 5).isScalar = true ∧
    Json.from_bson_t (Json.to_bson_t (Json.Number 5)) = .ok (Json.Number 5) :=
  ⟨rfl, json_scalar_roundtrip (Json.Number 5) rfl⟩

/-- C1: refuted by the code. `Json::from_bson_t` on an `Array` whose
values are all JSON-representable does **not** return the converted JSON
list — the `Array` arm forwards `Embedded(a)` to the `~[Json]` adapter,
whose match accepts only `Array`, so the conversion always fails with the
list adapter's mismatch error. Evaluated here at the one-element array
`{"0": Double 5}`. -/
theorem json_from_array_always_fails :
    Json.from_bson_t (.Array [("0", .Double 5)]) =
      .error "only Arrays can be converted to lists" := by
  simp [Json.from_bson_t, jsonSeq.from_bson_t]

/-- C5: For every container `c` and value adapter, the mapping
adapter's `from_bson_t` on `Array(c)` returns exactly the result it returns
on `Embedded(c)`, and every other variant yields the type-mismatch
error. -/
theorem hashmap_leniency {α : Type} (fromV : Document → Except String α) :
    (∀ c : BsonDocument,
      hmap.from_bson_t fromV (.Array c) = hmap.from_bson_t fromV (.Embedded c)) ∧
    (∀ doc : Document, isMapInput doc = false →
      hmap.from_bson_t fromV doc =
        .error "can only convert Embedded or Array to hashmap") := by
  constructor
  · intro c; rfl
  · intro doc h; cases doc <;> simp_all [hmap.from_bson_t, isMapInput]

theorem hashmap_leniency_witness :
    hmap.from_bson_t i32.from_bson_t (.Array [("0", .Int32 1)]) =
      hmap.from_bson_t i32.from_bson_t (.Embedded [("0", .Int32 1)]) ∧
    hmap.from_bson_t i32.from_bson_t .Null =
      .error "can only convert Embedded or Array to hashmap" :=
  ⟨(hashmap_leniency i32.from_bson_t).1 [("0", .Int32 1)],
   (hashmap_leniency i32.from_bson_t).2 .Null rfl⟩

/-- C6: `i64::from_bson_t` returns `Ok(i)` on `Int64(i)`, `UTCDate(i)`
and `Timestamp(i)` and the type-mismatch error on every other variant, and
every other scalar kind's `from_bson_t` accepts a single input variant
(`Double` for the float kinds, `Int32` for the narrow integer kinds). -/
theorem i64_accepts_exactly_three :
    (∀ i : ℤ, i64.from_bson_t (.Int64 i) = .ok i ∧
      i64.from_bson_t (.UTCDate i) = .ok i ∧
      i64.from_bson_t (.Timestamp i) = .ok i) ∧
    (∀ doc : Document, isInt64Accepted doc = false →
      i64.from_bson_t doc =
        .error "can only cast Int64, Date, and Timestamp to i64") ∧
    (∀ doc : Document,
      ((f64.from_bson_t doc).isOk || (f32.from_bson_t doc).isOk ||
        (float.from_bson_t doc).isOk) = true → isDoubleDoc doc = true) ∧
    (∀ doc : Document,
      ((i32.from_bson_t doc).isOk || (i8.from_bson_t doc).isOk ||
        (i16.from_bson_t doc).isOk || (u8.from_bson_t doc).isOk ||
        (u16.from_bson_t doc).isOk || (u32.from_bson_t doc).isOk ||
        (int.from_bson_t doc).isOk || (uint.from_bson_t doc).isOk ||
        (char.from_bson_t doc).isOk) = true → isInt32Doc doc = true) := by
  refine ⟨fun i => ⟨rfl, rfl, rfl⟩, ?_, ?_, ?_⟩
  · intro doc h; cases doc <;> simp_all [i64.from_bson_t, isInt64Accepted]
  · intro doc h
    cases doc <;>
      simp_all [f64.from_bson_t, f32.from_bson_t, float.from_bson_t,
        isDoubleDoc, Except.isOk, Except.toBool]
  · intro doc h
    cases doc <;>
      simp_all [i32.from_bson_t, i8.from_bson_t, i16.from_bson_t,
        u8.from_bson_t, u16.from_bson_t, u32.from_bson_t, int.from_bson_t,
        uint.from_bson_t, char.from_bson_t, isInt32Doc, Except.isOk,
        Except.toBool]

theorem i64_accepts_exactly_three_witness :
    i64.from_bson_t (.Int64 7) = .ok 7 ∧
    i64.from_bson_t .Null =
      .error "can only cast Int64, Date, and Timestamp to i64" ∧
    isDoubleDoc (.Double 1) = true ∧
    isInt32Doc (.Int32 1) = true :=
  ⟨(i64_accepts_exactly_three.1 7).1,
   i64_accepts_exactly_three.2.1 .Null rfl,
   i64_accepts_exactly_three.2.2.1 (.Double 1) rfl,
   i64_accepts_exactly_three.2.2.2 (.Int32 1) rfl⟩

/-- Helper for C7: the sequence element loop stops at the first failing
field and returns that element's own error unchanged. -/
theorem seq_fromFields_first_error {α : Type} (fromT : Document → Except String α)
    (k : String) (v : Document) (rest : List (String × Document)) (e : String)
    (hv : fromT v = .error e) :
    ∀ pre : List (String × Document), (∀ p ∈ pre, ∃ a, fromT p.2 = .ok a) →
      seq.fromFields fromT (pre ++ (k, v) :: rest) = .error e := by
  intro pre
  induction pre with
  | nil => intro _; simp [seq.fromFields, hv]
  | cons p ps ih =>
      intro hpre
      obtain ⟨a, ha⟩ := hpre p (by simp)
      have hrest : ∀ q ∈ ps, ∃ a, fromT q.2 = .ok a := fun q hq =>
        hpre q (by simp [hq])
      simp only [List.cons_append, seq.fromFields, ha, List.append_eq, ih hrest]

/-- C7: When the sequence adapter reads an `Array` in which every field
before some failing field converts and that field's element conversion
fails with `e`, the whole conversion returns exactly `Err e` — the
element's own error, no partial list. -/
theorem seq_from_propagates_first_error {α : Type}
    (fromT : Document → Except String α) (pre : List (String × Document))
    (k : String) (v : Document) (rest : List (String × Document)) (e : String)
    (hpre : ∀ p ∈ pre, ∃ a, fromT p.2 = .ok a) (hv : fromT v = .error e) :
    seq.from_bson_t fromT (.Array (pre ++ (k, v) :: rest)) = .error e := by
  simpa [seq.from_bson_t] using seq_fromFields_first_error fromT k v rest e hv pre hpre

theorem seq_from_propagates_first_error_witness :
    seq.from_bson_t i32.from_bson_t
      (.Array [("0", .Int32 1), ("1", .Null), ("2", .Int32 3)]) =
      .error "can only cast Int32 to i32" := by
  have h := seq_from_propagates_first_error i32.from_bson_t [("0", .Int32 1)]
    "1" .Null [("2", .Int32 3)] "can only cast Int32 to i32"
    (by intro p hp; simp at hp; subst hp; exact ⟨1, rfl⟩) rfl
  simpa using h

/-- C8: The string adapter's `to_bson_t` returns the external parser's
document on success and aborts fatally (not with a `Result` error) on a
parse failure; its `from_bson_t` returns the contained string for
`UString` and a type-mismatch error for every other variant. -/
theorem str_adapter_spec :
    (∀ (parse : String → Except String Document) (s : String) (d : Document),
      parse s = .ok d → str.to_bson_t parse s = .ok d) ∧
    (∀ (parse : String → Except String Document) (s e : String),
      parse s = .error e →
        str.to_bson_t parse s = .fatal ("invalid string for parsing: " ++ e)) ∧
    (∀ s : String, str.from_bson_t (.UString s) = .ok s) ∧
    (∀ doc : Document, isUStr doc = false →
      str.from_bson_t doc =
        .error ("could not convert " ++ doc.debugStr ++ " to string")) := by
  refine ⟨?_, ?_, fun s => rfl, ?_⟩
  · intro parse s d h; simp [str.to_bson_t, h]
  · intro parse s e h; simp [str.to_bson_t, h]
  · intro doc h; cases doc <;> simp_all [str.from_bson_t, isUStr]

theorem str_adapter_spec_witness :
    str.to_bson_t (fun _ => .ok .Null) "x" = .ok .Null ∧
    str.to_bson_t (fun _ => .error "bad") "x" =
      .fatal ("invalid string for parsing: " ++ "bad") ∧
    str.from_bson_t (.UString "y") = .ok "y" ∧
    str.from_bson_t .MinKey =
      .error ("could not convert " ++ Document.MinKey.debugStr ++ " to string") :=
  ⟨str_adapter_spec.1 (fun _ => .ok .Null) "x" .Null rfl,
   str_adapter_spec.2.1 (fun _ => .error "bad") "x" "bad" rfl,
   str_adapter_spec.2.2.1 "y",
   str_adapter_spec.2.2.2 .MinKey rfl⟩

/-- C9: For every narrow integer kind and every `i32` payload `i` —
including payloads outside the narrow kind's range — `from_bson_t` on
`Int32(i)` returns `Ok` of `i` wrapped/truncated by the kind's native cast,
never a range error. -/
theorem narrow_from_int32_wraps (i : ℤ)
    (hlo : -(2 ^ 31) ≤ i) (hhi : i < 2 ^ 31) :
    i8.from_bson_t (.Int32 i) = .ok (wrapS 8 i) ∧
    i16.from_bson_t (.Int32 i) = .ok (wrapS 16 i) ∧
    u8.from_bson_t (.Int32 i) = .ok (wrapU 8 i) ∧
    u16.from_bson_t (.Int32 i) = .ok (wrapU 16 i) ∧
    u32.from_bson_t (.Int32 i) = .ok (wrapU 32 i) ∧
    int.from_bson_t (.Int32 i) = .ok i ∧
    uint.from_bson_t (.Int32 i) = .ok (wrapU 64 i) ∧
    char.from_bson_t (.Int32 i) = .ok (wrapU 32 i) :=
  ⟨rfl, rfl, rfl, rfl, rfl, rfl, rfl, rfl⟩

theorem narrow_from_int32_wraps_witness :
    i8.from_bson_t (.Int32 1000) = .ok (wrapS 8 1000) ∧
    u8.from_bson_t (.Int32 1000) = .ok (wrapU 8 1000) := by
  have h := narrow_from_int32_wraps 1000 (by norm_num) (by norm_num)
  exact ⟨h.1, h.2.2.1⟩

/-- C2: Every scalar kind round-trips through its canonical widened
representation: `from_bson_t(to_bson_t(v)) = Ok(v)` for every in-range
value `v`. -/
theorem scalar_roundtrip :
    (∀ v : ℚ, f64.from_bson_t (f64.to_bson_t v) = .ok v) ∧
    (∀ v : ℚ, float.from_bson_t (float.to_bson_t v) = .ok v) ∧
    (∀ v : ℚ, IsF32 v → f32.from_bson_t (f32.to_bson_t v) = .ok v) ∧
    (∀ v : ℤ, i64.from_bson_t (i64.to_bson_t v) = .ok v) ∧
    (∀ v : ℤ, i32.from_bson_t (i32.to_bson_t v) = .ok v) ∧
    (∀ v : ℤ, -(2 ^ 7) ≤ v → v < 2 ^ 7 →
      i8.from_bson_t (i8.to_bson_t v) = .ok v) ∧
    (∀ v : ℤ, -(2 ^ 15) ≤ v → v < 2 ^ 15 →
      i16.from_bson_t (i16.to_bson_t v) = .ok v) ∧
    (∀ v : ℤ, 0 ≤ v → v < 2 ^ 8 →
      u8.from_bson_t (u8.to_bson_t v) = .ok v) ∧
    (∀ v : ℤ, 0 ≤ v → v < 2 ^ 16 →
      u16.from_bson_t (u16.to_bson_t v) = .ok v) ∧
    (∀ v : ℤ, 0 ≤ v → v < 2 ^ 31 →
      u32.from_bson_t (u32.to_bson_t v) = .ok v) ∧
    (∀ v : ℤ, -(2 ^ 31) ≤ v → v < 2 ^ 31 →
      int.from_bson_t (int.to_bson_t v) = .ok v) ∧
    (∀ v : ℤ, 0 ≤ v → v < 2 ^ 31 →
      uint.from_bson_t (uint.to_bson_t v) = .ok v) ∧
    (∀ v : ℤ, 0 ≤ v → v < 0x110000 →
      char.from_bson_t (char.to_bson_t v) = .ok v) := by
  refine ⟨fun v => rfl, fun v => rfl, ?_, fun v => rfl, fun v => rfl,
    ?_, ?_, ?_, ?_, ?_, ?_, ?_, ?_⟩
  · rintro v ⟨m, e, hm, he, _, hq⟩
    simp [f32.to_bson_t, f32.from_bson_t, f64.to_bson_t, f64.from_bson_t,
      f64_as_f32, fpRound_eq_self hm he hq]
  · intro v h1 h2
    simp [i8.to_bson_t, i8.from_bson_t, i32.to_bson_t, i32.from_bson_t, wrapS]
    omega
  · intro v h1 h2
    simp [i16.to_bson_t, i16.from_bson_t, i32.to_bson_t, i32.from_bson_t, wrapS]
    omega
  · intro v h1 h2
    simp [u8.to_bson_t, u8.from_bson_t, i32.to_bson_t, i32.from_bson_t, wrapU]
    omega
  · intro v h1 h2
    simp [u16.to_bson_t, u16.from_bson_t, i32.to_bson_t, i32.from_bson_t, wrapU]
    omega
  · intro v h1 h2
    simp [u32.to_bson_t, u32.from_bson_t, i32.to_bson_t, i32.from_bson_t,
      wrapS, wrapU]
    omega
  · intro v h1 h2
    simp [int.to_bson_t, int.from_bson_t, i32.to_bson_t, i32.from_bson_t, wrapS]
    omega
  · intro v h1 h2
    simp [uint.to_bson_t, uint.from_bson_t, i32.to_bson_t, i32.from_bson_t,
      wrapS, wrapU]
    omega
  · intro v h1 h2
    simp [char.to_bson_t, char.from_bson_t, i32.to_bson_t, i32.from_bson_t,
      i32_as_char, wrapU]
    omega

theorem scalar_roundtrip_witness :
    f32.from_bson_t (f32.to_bson_t (3 / 2)) = .ok (3 / 2) ∧
    i8.from_bson_t (i8.to_bson_t (-5)) = .ok (-5) ∧
    i16.from_bson_t (i16.to_bson_t 300) = .ok 300 ∧
    u8.from_bson_t (u8.to_bson_t 200) = .ok 200 ∧
    u16.from_bson_t (u16.to_bson_t 60000) = .ok 60000 ∧
    u32.from_bson_t (u32.to_bson_t 123456) = .ok 123456 ∧
    int.from_bson_t (int.to_bson_t (-70000)) = .ok (-70000) ∧
    uint.from_bson_t (uint.to_bson_t 70000) = .ok 70000 ∧
    char.from_bson_t (char.to_bson_t 97) = .ok 97 :=
  ⟨scalar_roundtrip.2.2.1 (3 / 2)
      ⟨3, -1, by decide, by decide, by decide, by norm_num⟩,
   scalar_roundtrip.2.2.2.2.2.1 (-5) (by norm_num) (by norm_num),
   scalar_roundtrip.2.2.2.2.2.2.1 300 (by norm_num) (by norm_num),
   scalar_roundtrip.2.2.2.2.2.2.2.1 200 (by norm_num) (by norm_num),
   scalar_roundtrip.2.2.2.2.2.2.2.2.1 60000 (by norm_num) (by norm_num),
   scalar_roundtrip.2.2.2.2.2.2.2.2.2.1 123456 (by norm_num) (by norm_num),
   scalar_roundtrip.2.2.2.2.2.2.2.2.2.2.1 (-70000) (by norm_num) (by norm_num),
   scalar_roundtrip.2.2.2.2.2.2.2.2.2.2.2.1 70000 (by norm_num) (by norm_num),
   scalar_roundtrip.2.2.2.2.2.2.2.2.2.2.2.2 97 (by norm_num) (by norm_num)⟩

/-- Helper for C3: `put` of a key absent from the container appends. -/
theorem put_fresh (k : String) (v : Document) :
    ∀ d : BsonDocument, (∀ p ∈ d, p.1 ≠ k) → d.put k v = d ++ [(k, v)] := by
  intro d
  induction d with
  | nil => intro _; rfl
  | cons q qs ih =>
      intro h
      obtain ⟨k', v'⟩ := q
      have hk : k' ≠ k := h (k', v') (by simp)
      simp [BsonDocument.put, hk, ih (fun p hp => h p (by simp [hp]))]

/-- Helper for C3: repeated `put` of fields with fresh, pairwise-distinct
keys appends them in order. -/
theorem putList_fresh :
    ∀ (ps : List (String × Document)) (d : BsonDocument),
      (∀ p ∈ ps, ∀ q ∈ d, q.1 ≠ p.1) → (ps.map Prod.fst).Nodup →
      BsonDocument.putList d ps = d ++ ps := by
  intro ps
  induction ps with
  | nil => intro d _ _; simp [BsonDocument.putList]
  | cons p ps ih =>
      intro d hfresh hnodup
      obtain ⟨k, v⟩ := p
      rw [List.map_cons, List.nodup_cons] at hnodup
      obtain ⟨hk, hnd⟩ := hnodup
      rw [BsonDocument.putList,
        put_fresh k v d (fun q hq => hfresh (k, v) (by simp) q hq),
        ih (d ++ [(k, v)]) ?_ hnd]
      · simp
      · intro p hp q hq
        rcases List.mem_append.mp hq with hq | hq
        · exact hfresh p (by simp [hp]) q hq
        · simp at hq
          rw [hq]
          intro hkp
          apply hk
          rw [show ((k, v) : String × Document).1 = p.1 from hkp]
          exact List.mem_map.mpr ⟨p, hp, rfl⟩

/-- Helper for C3: the sequence element loop recovers the integer list
whose `Int32` images are the field values. -/
theorem fromFields_int32 :
    ∀ (ps : List (String × Document)) (xs : List ℤ),
      ps.map Prod.snd = xs.map Document.Int32 →
      seq.fromFields i32.from_bson_t ps = .ok xs := by
  intro ps
  induction ps with
  | nil =>
      intro xs h
      cases xs with
      | nil => rfl
      | cons x xs' => simp at h
  | cons p ps ih =>
      intro xs h
      cases xs with
      | nil => simp at h
      | cons x xs' =>
          obtain ⟨k, v⟩ := p
          simp only [List.map_cons, List.cons.injEq] at h
          obtain ⟨hv, hrest⟩ := h
          subst hv
          simp [seq.fromFields, i32.from_bson_t, ih xs' hrest]

/-- C3: `to_bson_t` of an `i32` list is an `Array` holding, in
insertion order, the keys `"0", "1", …` mapped to `Int32` of the elements,
and `from_bson_t` recovers the original list. -/
theorem i32_list_roundtrip (l : List ℤ)
    (hrange : ∀ x ∈ l, -(2 ^ 31) ≤ x ∧ x < 2 ^ 31) :
    seq.to_bson_t i32.to_bson_t l =
      .Array ((l.enum).map fun p => (natToStr p.1, Document.Int32 p.2)) ∧
    seq.from_bson_t i32.from_bson_t (seq.to_bson_t i32.to_bson_t l) = .ok l := by
  have hshape : seq.to_bson_t i32.to_bson_t l =
      .Array ((l.enum).map fun p => (natToStr p.1, Document.Int32 p.2)) := by
    unfold seq.to_bson_t
    congr 1
    rw [putList_fresh _ [] (by simp) ?_]
    · simp [List.enum_map, List.map_map, Function.comp, Prod.map, i32.to_bson_t]
    · rw [List.map_map]
      have hc : (Prod.fst ∘ fun p : ℕ × Document => (natToStr p.1, p.2)) =
          natToStr ∘ Prod.fst := rfl
      rw [hc, ← List.map_map, List.enum_map_fst]
      exact (List.nodup_range _).map natToStr_injective
  refine ⟨hshape, ?_⟩
  rw [hshape]
  rw [show seq.from_bson_t i32.from_bson_t
      (Document.Array ((l.enum).map fun p => (natToStr p.1, Document.Int32 p.2)))
      = seq.fromFields i32.from_bson_t
        ((l.enum).map fun p => (natToStr p.1, Document.Int32 p.2)) from rfl]
  apply fromFields_int32
  rw [List.map_map]
  have hc : (Prod.snd ∘ fun p : ℕ × ℤ => (natToStr p.1, Document.Int32 p.2)) =
      Document.Int32 ∘ Prod.snd := rfl
  rw [hc, ← List.map_map, List.enum_map_snd]

theorem i32_list_roundtrip_witness :
    seq.to_bson_t i32.to_bson_t [1, 2, 3] =
      .Array [(natToStr 0, .Int32 1), (natToStr 1, .Int32 2),
        (natToStr 2, .Int32 3)] ∧
    seq.from_bson_t i32.from_bson_t (seq.to_bson_t i32.to_bson_t [1, 2, 3]) =
      .ok [1, 2, 3] := by
  have h := i32_list_roundtrip [1, 2, 3] (by decide)
  exact ⟨by simpa [List.enum] using h.1, h.2⟩

end Formattable
